import Mathlib

/-!
Verification of the template registry of `trusted-cgi` (package `templates`,
file `src/templates/template.go`): the embedded catalog, the directory loader,
the registry merger, the availability checker, and the asset-tree extractor
`mustEmbed`.  Go maps are embedded as association lists (`mapGet` finds the
first binding, `mapInsert` overwrites in place, matching Go map assignment);
Go's `(value, error)` multiple returns are embedded as
`Option value × Option String`, with `none` for a `nil` map / `nil` error;
a Go panic is embedded as `none` in an `Option` result.
-/

namespace Templates

/-- Association-list model of a Go map: first binding wins on lookup. -/
def mapGet {α : Type} : List (String × α) → String → Option α
  | [], _ => none
  | (k, v) :: rest, key => if k = key then some v else mapGet rest key

/-- Association-list model of Go map assignment `m[k] = v`: overwrite the
existing binding in place, or append a new one. -/
def mapInsert {α : Type} : List (String × α) → String → α → List (String × α)
  | [], k, v => [(k, v)]
  | (k2, v2) :: rest, k, v =>
    if k2 = k then (k, v) :: rest else (k2, v2) :: mapInsert rest k v

/-- Keys of an association list, in order. -/
def mapKeys {α : Type} (m : List (String × α)) : List String :=
  m.map Prod.fst

/-- Go `strings.HasSuffix`, embedded over the character list (all suffixes
used by the code are ASCII, so byte and character suffixes agree). -/
def strEndsWith (s post : String) : Bool :=
  List.isSuffixOf post.data s.data

/-- Go byte slicing `name[:len(name)-n]`, embedded over the character list
(the stripped suffix `.json` is ASCII, so dropping `n` bytes and dropping
`n` characters agree). -/
def strDropRight (s : String) (n : Nat) : String :=
  String.mk (s.data.take (s.data.length - n))

/-- Modelled from the spec: `types.Manifest` (package `types` is not part of
the sources) — "display name, long-form description, run command (ordered
argument vector), time limit (duration), maximum payload size, output header
mapping".  The time limit (Go `types.JsonDuration`) is embedded as its
underlying integer nanosecond count. -/
structure Manifest where
  Name : String
  Description : String
  Run : List String
  TimeLimit : Int
  MaximumPayload : Int
  OutputHeaders : List (String × String)
deriving DecidableEq

/-- The Go zero value of `types.Manifest`. -/
def Manifest.zero : Manifest :=
  { Name := "", Description := "", Run := [], TimeLimit := 0,
    MaximumPayload := 0, OutputHeaders := [] }

/-- `Template` from `src/templates/template.go`: description, manifest,
optional post-clone action, availability check commands, starter files. -/
structure Template where
  Description : String
  Manifest : Manifest
  PostClone : String
  Check : List (List String)
  Files : List (String × String)
deriving DecidableEq

/-- A registry: Go `map[string]*Template`. -/
abbrev Registry := List (String × Template)

/-! ## Availability checker

`Template.IsAvailable` runs each check command in order via
`exec.CommandContext(ctx, check[0], check[1:]...)` followed by `cmd.Run()`.
The host (and the cancellable context baked into every command) is embedded
as an oracle `exec : List String → Bool` giving the success of `cmd.Run()`
on a full argument vector.  The Go expression `check[0]` panics when `check`
is an empty slice; the result type is therefore `Option Bool`, with `none`
for that panic. -/

/-- One pass over the check list: return `some false` at the first failing
probe, `some true` when all pass, `none` when a probe vector is empty (the
Go code panics at `check[0]` before starting any process). -/
def runChecks (exec : List String → Bool) : List (List String) → Option Bool
  | [] => some true
  | check :: rest =>
    if check.isEmpty then none
    else if exec check then runChecks exec rest
    else some false

/-- The probes actually started by `runChecks`, in order: execution stops
after the first failing probe, and an empty vector panics before any process
is spawned. -/
def executedChecks (exec : List String → Bool) : List (List String) → List (List String)
  | [] => []
  | check :: rest =>
    if check.isEmpty then []
    else if exec check then check :: executedChecks exec rest
    else [check]

/-- `func (t *Template) IsAvailable(ctx context.Context) bool`. -/
def Template.IsAvailable (t : Template) (exec : List String → Bool) : Option Bool :=
  runChecks exec t.Check

/-! ## Directory loader -/

/-- The outcome of `Read` (open + JSON-decode) for one descriptor file,
as observed by `ListDir`: either an error or a decoded `Template`. -/
structure FSEntry where
  name : String
  isDir : Bool
  readResult : Except String Template

/-- The state `ListDir` finds at its directory path: `ioutil.ReadDir` either
reports not-exist, fails with another error, or lists the direct entries. -/
inductive DirState where
  | notExist
  | readError (msg : String)
  | entries (items : List FSEntry)

/-- The loop body of `ListDir`: skip directories and names without the
`.json` suffix, abort on the first `Read` error, otherwise bind the template
under the filename with the suffix stripped. -/
def listDirGo : List FSEntry → Registry → Option Registry × Option String
  | [], ans => (some ans, none)
  | item :: rest, ans =>
    if item.isDir || !(strEndsWith item.name ".json") then listDirGo rest ans
    else
      match item.readResult with
      | .error e => (none, some e)
      | .ok t => listDirGo rest (mapInsert ans (strDropRight item.name 5) t)

/-- `func ListDir(dir string) (map[string]*Template, error)`. -/
def ListDir (dir : DirState) : Option Registry × Option String :=
  match dir with
  | .notExist => (some [], none)
  | .readError e => (none, some e)
  | .entries items => listDirGo items []

/-! ## Embedded catalog -/

/-- The usage text repeated verbatim in each embedded manifest description
(the Go source spells out the same raw literal four times). -/
def usageDescription : String :=
  "### Usage\n\n    curl --data-binary \x27\x7b\"name\": \"reddec\"\x7d\x27 -H \x27Content-Type: application/json\x27 \"http://example.com/a/xyz\"\n\nReplace url to the real\n"

/-- Go constant `nodeJsScript`. -/
def nodeJsScript : String :=
  "\nasync function run(request) \x7b\n     return [\"hello\", \"world\"];\n\x7d\n\nlet input = \x27\x27;\nprocess.stdin.resume();\nprocess.stdin.setEncoding(\x27utf8\x27);\nprocess.stdin.on(\x27data\x27, function (chunk) \x7b\n    input += chunk;\n\x7d);\nprocess.stdin.on(\x27end\x27, function () \x7b\n\trun(JSON.parse(input)).catch((e)=> \x7b\n\t\treturn \x7b\"error\": e + \x27\x27\x7d;\n\t\x7d).then((response)=> \x7b\n\t\tprocess.stdout.write(JSON.stringify(response));\n\t\x7d)\n\x7d);\n"

/-- Go constant `nodeJsMake`. -/
def nodeJsMake : String :=
  "\ninstall:\n\tnpm install .\n"

/-- Go constant `nodeJsManifest`. -/
def nodeJsManifest : String :=
  "\x7b\n  \"name\": \"\",\n  \"version\": \"1.0.0\",\n  \"description\": \"\",\n  \"main\": \"index.js\",\n  \"scripts\": \x7b\n    \"test\": \"echo \\\"Error: no test specified\\\" && exit 1\"\n  \x7d,\n  \"author\": \"\",\n  \"license\": \"\",\n  \"dependencies\": \x7b\n    \"axios\": \"^0.19.2\"\n  \x7d\n\x7d"

/-- Go constant `phpScript`. -/
def phpScript : String :=
  "\n<?php\n$request = json_decode(stream_get_contents(STDIN));\n\n$response = array(\"hello\", \"world\");\n\necho json_encode($response, JSON_PRETTY_PRINT);\n?>"

/-- Go constant `nimScript`. -/
def nimScript : String :=
  "\nimport json\n\nlet request = stdin.readAll().parseJson()\n\necho pretty(%*[\"hello\", \"world\"])\n"

/-- Go constant `nimbleManifest`. -/
def nimbleManifest : String :=
  "\nversion       = \"0.1.0\"\nauthor        = \"\"\ndescription   = \"\"\nlicense       = \"\"\nsrcDir        = \"src\"\nbin           = @[\"lambda\"]\n\n# Dependencies\nrequires \"nim >= 1.2.0\"\n"

/-- Go constant `nimMake`. -/
def nimMake : String :=
  "\nbuild:\n\tnimble build\n\tmkdir -p bin\n\tmv -f lambda bin/\n"

/-- `func ListEmbedded() map[string]*Template`.  The Python template's files
come from `mustEmbed("assets/python")` over the compiled-in `embed.FS`; the
asset tree is not part of the sources, so the already-extracted mapping is
taken as the parameter `pythonFiles`. -/
def ListEmbedded (pythonFiles : List (String × String)) : Registry :=
  [ ("Python",
     { Description := "Python basic function"
       Check := [["which", "make"], ["which", "python3"],
                 ["python3", "-m", "venv", "--help"]]
       Files := pythonFiles
       Manifest :=
         { Name := "Example Python Function"
           Description := usageDescription
           Run := ["./venv/bin/python3", "app.py"]
           TimeLimit := 1000000000
           MaximumPayload := 8192
           OutputHeaders := [("Content-Type", "application/json")] }
       PostClone := "install" }),
    ("Node JS",
     { Description := "Node JS basic function"
       Check := [["which", "make"], ["which", "node"], ["which", "npm"]]
       Files := [("app.js", nodeJsScript), ("package.json", nodeJsManifest),
                 ("Makefile", nodeJsMake), (".cgiignore", "node_modules")]
       Manifest :=
         { Name := "Example NodeJS Function"
           Description := usageDescription
           Run := ["node", "app.js"]
           TimeLimit := 1000000000
           MaximumPayload := 8192
           OutputHeaders := [("Content-Type", "application/json")] }
       PostClone := "install" }),
    ("PHP",
     { Description := "PHP basic function"
       Manifest :=
         { Name := "Example PHP Function"
           Description := usageDescription
           Run := ["php", "app.php"]
           TimeLimit := 1000000000
           MaximumPayload := 8192
           OutputHeaders := [("Content-Type", "application/json")] }
       Check := [["which", "php"]]
       Files := [("app.php", phpScript)]
       PostClone := "" }),
    ("Nim",
     { Description := "Nim lang basic function"
       Manifest :=
         { Name := "Fast python-like function"
           Description := usageDescription
           Run := ["./bin/lambda"]
           TimeLimit := 1000000000
           MaximumPayload := 8192
           OutputHeaders := [("Content-Type", "application/json")] }
       PostClone := "build"
       Check := [["which", "make"], ["which", "nim"], ["which", "nimble"]]
       Files := [("src/lambda.nim", nimScript), ("lambda.nimble", nimbleManifest),
                 ("Makefile", nimMake)]}) ]

/-! ## Registry merger -/

/-- The merge loop of `List`: `for name, t := range ext { merged[name] = t }`. -/
def mergeRegs (base : Registry) (ext : Registry) : Registry :=
  ext.foldl (fun m kv => mapInsert m kv.1 kv.2) base

/-- `func List(templatesDir string) (map[string]*Template, error)` — named
`listTemplates` (the spec's name for it) because `List` would shadow the
core list type.  A `nil` map (`ext = none`) ranges as empty in Go. -/
def listTemplates (pythonFiles : List (String × String)) (dir : DirState) :
    Option Registry × Option String :=
  let merged := ListEmbedded pythonFiles
  match ListDir dir with
  | (_, some e) => (none, some e)
  | (ext, none) =>
    (some (mergeRegs merged (ext.getD [])), none)

/-! ## Lemmas about the availability checker -/

theorem isEmpty_false_of_ne {c : List String} (h : c ≠ []) : c.isEmpty = false := by
  cases c with
  | nil => exact absurd rfl h
  | cons a l => rfl

/-- Short-circuit: if every probe before position `i` is non-empty and
succeeds, and probe `i` is non-empty and fails, the checker returns
`some false` and starts exactly the probes up to and including `i`. -/
theorem runChecks_first_fail (exec : List String → Bool) :
    ∀ (checks : List (List String)) (i : Nat), i < checks.length →
    (∀ j c, j < i → checks.get? j = some c → c ≠ [] ∧ exec c = true) →
    (∀ c, checks.get? i = some c → c ≠ [] ∧ exec c = false) →
    runChecks exec checks = some false ∧
      executedChecks exec checks = checks.take (i + 1)
  | [], i, hi, _, _ => absurd hi (by simp)
  | c :: rest, 0, _, _, hfail => by
    obtain ⟨hne, hf⟩ := hfail c rfl
    constructor
    · simp [runChecks, isEmpty_false_of_ne hne, hf]
    · simp [executedChecks, isEmpty_false_of_ne hne, hf]
  | c :: rest, i + 1, hi, hpre, hfail => by
    obtain ⟨hne, ht⟩ := hpre 0 c (Nat.succ_pos i) rfl
    have ih := runChecks_first_fail exec rest i (Nat.lt_of_succ_lt_succ hi)
      (fun j d hj hd => hpre (j + 1) d (Nat.succ_lt_succ hj) hd)
      (fun d hd => hfail d hd)
    constructor
    · simpa [runChecks, isEmpty_false_of_ne hne, ht] using ih.1
    · simpa [executedChecks, isEmpty_false_of_ne hne, ht] using ih.2

/-- If every check vector is non-empty, the checker cannot panic: it
resolves to some boolean. -/
theorem runChecks_total (exec : List String → Bool) :
    ∀ checks : List (List String), (∀ c ∈ checks, c ≠ []) →
    ∃ b, runChecks exec checks = some b
  | [], _ => ⟨true, rfl⟩
  | c :: rest, h => by
    have hne := isEmpty_false_of_ne (h c (List.mem_cons_self c rest))
    cases hex : exec c with
    | true =>
      obtain ⟨b, hb⟩ := runChecks_total exec rest
        (fun d hd => h d (List.mem_cons_of_mem c hd))
      exact ⟨b, by simp [runChecks, hne, hex, hb]⟩
    | false => exact ⟨false, by simp [runChecks, hne, hex]⟩

/-- If every probe is a non-empty vector whose command succeeds, the
checker returns `some true`. -/
theorem runChecks_all_pass (exec : List String → Bool) :
    ∀ checks : List (List String), (∀ c ∈ checks, c ≠ [] ∧ exec c = true) →
    runChecks exec checks = some true
  | [], _ => rfl
  | c :: rest, h => by
    obtain ⟨hne, ht⟩ := h c (List.mem_cons_self c rest)
    have ih := runChecks_all_pass exec rest
      (fun d hd => h d (List.mem_cons_of_mem c hd))
    simp [runChecks, isEmpty_false_of_ne hne, ht, ih]

/-- C4: if probe `i` of the check list is the first probe whose execution
fails (all earlier probes are non-empty vectors whose commands succeed,
probe `i` is a non-empty vector whose command fails), then `IsAvailable`
returns `false`, no probe after position `i` is started, and no error or
panic is surfaced (the result is a boolean, not the panic value `none`);
and if every probe succeeds, `IsAvailable` returns `true`. -/
theorem c4_short_circuit_first_failure :
    (∀ (t : Template) (exec : List String → Bool) (i : Nat),
      i < t.Check.length →
      (∀ j c, j < i → t.Check.get? j = some c → c ≠ [] ∧ exec c = true) →
      (∀ c, t.Check.get? i = some c → c ≠ [] ∧ exec c = false) →
      t.IsAvailable exec = some false ∧
        executedChecks exec t.Check = t.Check.take (i + 1)) ∧
    (∀ (t : Template) (exec : List String → Bool),
      (∀ c ∈ t.Check, c ≠ [] ∧ exec c = true) →
      t.IsAvailable exec = some true) := by
  constructor
  · intro t exec i hi hpre hfail
    exact runChecks_first_fail exec t.Check i hi hpre hfail
  · intro t exec h
    exact runChecks_all_pass exec t.Check h

/-- Witness for C4 at a concrete template: first probe succeeds, second
fails, checker returns `some false` having started exactly both. -/
theorem c4_short_circuit_first_failure_witness :
    Template.IsAvailable
        ⟨"", Manifest.zero, "", [["a"], ["b"], ["c"]], []⟩
        (fun c => c == ["a"]) = some false ∧
      executedChecks (fun c => c == ["a"]) [["a"], ["b"], ["c"]] =
        [["a"], ["b"], ["c"]].take 2 :=
  c4_short_circuit_first_failure.1
    ⟨"", Manifest.zero, "", [["a"], ["b"], ["c"]], []⟩
    (fun c => c == ["a"]) 1 (by decide)
    (by
      intro j c hj hc
      interval_cases j
      simp only [List.get?] at hc
      cases hc
      exact ⟨by decide, by decide⟩)
    (by
      intro c hc
      simp only [List.get?] at hc
      cases hc
      exact ⟨by decide, by decide⟩)

/-- C5: a template with an empty (or nil) check list is available for every
host oracle, and no probe is ever started. -/
theorem c5_empty_check_always_available (t : Template)
    (exec : List String → Bool) (h : t.Check = []) :
    t.IsAvailable exec = some true ∧ executedChecks exec t.Check = [] := by
  unfold Template.IsAvailable
  rw [h]
  exact ⟨rfl, rfl⟩

/-- Witness for C5: a concrete template with an empty check list. -/
theorem c5_empty_check_always_available_witness :
    Template.IsAvailable ⟨"", Manifest.zero, "", [], []⟩ (fun _ => false) =
        some true ∧
      executedChecks (fun _ => false) ([] : List (List String)) = [] :=
  c5_empty_check_always_available ⟨"", Manifest.zero, "", [], []⟩
    (fun _ => false) rfl

/-- C6 counterexample: a template whose check list contains an empty
argument vector makes `IsAvailable` hit the Go panic `check[0]` (index out
of range) — embedded as `none` — even with a host oracle on which every
command succeeds, so `IsAvailable` does not always resolve to a boolean. -/
theorem c6_counterexample_empty_vector_panics :
    Template.IsAvailable ⟨"", Manifest.zero, "", [[]], []⟩ (fun _ => true) =
      none := rfl

/-- C6 (amended): for every template whose check vectors are all non-empty,
`IsAvailable` terminates normally and resolves to a boolean for every host
oracle — no error is ever surfaced to the caller. -/
theorem c6_no_abort_on_nonempty_vectors (t : Template)
    (exec : List String → Bool) (h : ∀ c ∈ t.Check, c ≠ []) :
    ∃ b, t.IsAvailable exec = some b :=
  runChecks_total exec t.Check h

/-- Witness for the amended C6 at a concrete template. -/
theorem c6_no_abort_on_nonempty_vectors_witness :
    ∃ b, Template.IsAvailable ⟨"", Manifest.zero, "", [["x"], ["y"]], []⟩
      (fun c => c == ["x"]) = some b :=
  c6_no_abort_on_nonempty_vectors ⟨"", Manifest.zero, "", [["x"], ["y"]], []⟩
    (fun c => c == ["x"]) (by decide)

/-- C9: cancellation.  A canceled (or timed-out) operation makes
`cmd.Run()` fail for probe `i` and for everything after it; if the earlier
probes completed successfully, `IsAvailable` reports `false` and no probe
after position `i` is ever started — a canceled invocation never reports
the template available. -/
theorem c9_cancellation_reports_unavailable (t : Template)
    (exec : List String → Bool) (i : Nat) (hi : i < t.Check.length)
    (hpre : ∀ j c, j < i → t.Check.get? j = some c → c ≠ [] ∧ exec c = true)
    (hne : ∀ c, t.Check.get? i = some c → c ≠ [])
    (hcancel : ∀ j c, i ≤ j → t.Check.get? j = some c → exec c = false) :
    t.IsAvailable exec = some false ∧
      executedChecks exec t.Check = t.Check.take (i + 1) :=
  runChecks_first_fail exec t.Check i hi hpre
    (fun c hc => ⟨hne c hc, hcancel i c (Nat.le_refl i) hc⟩)

/-- Witness for C9: the context is canceled from the very first probe on. -/
theorem c9_cancellation_reports_unavailable_witness :
    Template.IsAvailable ⟨"", Manifest.zero, "", [["a"], ["b"]], []⟩
        (fun _ => false) = some false ∧
      executedChecks (fun _ => false) [["a"], ["b"]] =
        [["a"], ["b"]].take 1 :=
  c9_cancellation_reports_unavailable
    ⟨"", Manifest.zero, "", [["a"], ["b"]], []⟩ (fun _ => false) 0
    (by decide)
    (by intro j c hj hc; omega)
    (by
      intro c hc
      simp only [List.get?] at hc
      cases hc
      decide)
    (fun j c _ _ => rfl)

/-! ## Lemmas about the association-list map model -/

theorem mapGet_mapInsert_self {α : Type} (k : String) (v : α) :
    ∀ m : List (String × α), mapGet (mapInsert m k v) k = some v
  | [] => by simp [mapInsert, mapGet]
  | (k2, v2) :: rest => by
    by_cases h : k2 = k
    · simp [mapInsert, h, mapGet]
    · simp [mapInsert, h, mapGet, mapGet_mapInsert_self k v rest]

theorem mapKeys_cons {α : Type} (k : String) (v : α) (m : List (String × α)) :
    mapKeys ((k, v) :: m) = k :: mapKeys m := rfl

theorem mapGet_mapInsert_ne {α : Type} (k k' : String) (v : α) (hne : k' ≠ k) :
    ∀ m : List (String × α), mapGet (mapInsert m k v) k' = mapGet m k'
  | [] => by
    have h2 : ¬k = k' := fun he => hne he.symm
    simp [mapInsert, mapGet, h2]
  | (k2, v2) :: rest => by
    by_cases h : k2 = k
    · subst h
      have h2 : ¬k2 = k' := fun he => hne he.symm
      simp [mapInsert, mapGet, h2]
    · simp [mapInsert, h, mapGet, mapGet_mapInsert_ne k k' v hne rest]

theorem mem_mapKeys_mapInsert {α : Type} (a k : String) (v : α) :
    ∀ m : List (String × α),
      a ∈ mapKeys (mapInsert m k v) ↔ a ∈ mapKeys m ∨ a = k
  | [] => by simp [mapInsert, mapKeys_cons, mapKeys]
  | (k2, v2) :: rest => by
    by_cases h : k2 = k
    · subst h
      rw [mapInsert, if_pos rfl, mapKeys_cons, mapKeys_cons]
      simp only [List.mem_cons]
      tauto
    · rw [mapInsert, if_neg h, mapKeys_cons, mapKeys_cons]
      simp only [List.mem_cons, mem_mapKeys_mapInsert a k v rest]
      tauto

theorem nodup_mapKeys_mapInsert {α : Type} (k : String) (v : α) :
    ∀ m : List (String × α),
      (mapKeys m).Nodup → (mapKeys (mapInsert m k v)).Nodup
  | [], _ => by
    rw [mapInsert, mapKeys_cons]
    exact List.nodup_singleton k
  | (k2, v2) :: rest, hnd => by
    rw [mapKeys_cons, List.nodup_cons] at hnd
    by_cases h : k2 = k
    · subst h
      rw [mapInsert, if_pos rfl, mapKeys_cons, List.nodup_cons]
      exact hnd
    · rw [mapInsert, if_neg h, mapKeys_cons, List.nodup_cons]
      refine ⟨?_, nodup_mapKeys_mapInsert k v rest hnd.2⟩
      rw [mem_mapKeys_mapInsert]
      rintro (hm | he)
      · exact hnd.1 hm
      · exact h he

/-! ## Lemmas about the registry merger -/

theorem mergeRegs_cons (base : Registry) (k : String) (v : Template)
    (ext : Registry) :
    mergeRegs base ((k, v) :: ext) = mergeRegs (mapInsert base k v) ext := rfl

theorem mapGet_mergeRegs_not_mem (k : String) :
    ∀ (ext : Registry) (base : Registry), k ∉ mapKeys ext →
      mapGet (mergeRegs base ext) k = mapGet base k
  | [], base, _ => rfl
  | (k2, v2) :: rest, base, h => by
    rw [mapKeys_cons, List.mem_cons, not_or] at h
    rw [mergeRegs_cons, mapGet_mergeRegs_not_mem k rest _ h.2,
      mapGet_mapInsert_ne k2 k v2 h.1 base]

theorem mapGet_mergeRegs_mem (k : String) :
    ∀ (ext : Registry) (base : Registry) (v : Template),
      (mapKeys ext).Nodup → mapGet ext k = some v →
      mapGet (mergeRegs base ext) k = some v
  | [], _, _, _, hget => by simp [mapGet] at hget
  | (k2, v2) :: rest, base, v, hnd, hget => by
    rw [mapKeys_cons, List.nodup_cons] at hnd
    by_cases h : k2 = k
    · subst h
      rw [mapGet, if_pos rfl] at hget
      cases hget
      rw [mergeRegs_cons, mapGet_mergeRegs_not_mem k2 rest _ hnd.1]
      exact mapGet_mapInsert_self k2 v2 base
    · rw [mapGet, if_neg h] at hget
      rw [mergeRegs_cons]
      exact mapGet_mergeRegs_mem k rest (mapInsert base k2 v2) v hnd.2 hget

/-! ## Lemmas about the directory loader -/

theorem listDirGo_nodup :
    ∀ (items : List FSEntry) (ans : Registry) (r : Registry)
      (err : Option String),
      (mapKeys ans).Nodup → listDirGo items ans = (some r, err) →
      (mapKeys r).Nodup
  | [], ans, r, err, hnd, heq => by
    rw [listDirGo] at heq
    cases heq
    exact hnd
  | item :: rest, ans, r, err, hnd, heq => by
    rw [listDirGo] at heq
    by_cases hskip : (item.isDir || !strEndsWith item.name ".json") = true
    · rw [if_pos hskip] at heq
      exact listDirGo_nodup rest ans r err hnd heq
    · rw [if_neg hskip] at heq
      cases hread : item.readResult with
      | error e => rw [hread] at heq; cases heq
      | ok t =>
        rw [hread] at heq
        exact listDirGo_nodup rest _ r err
          (nodup_mapKeys_mapInsert _ t ans hnd) heq

theorem listDir_nodup (dir : DirState) (r : Registry) (err : Option String)
    (h : ListDir dir = (some r, err)) : (mapKeys r).Nodup := by
  cases dir with
  | notExist => rw [ListDir] at h; cases h; simp [mapKeys]
  | readError e => rw [ListDir] at h; cases h
  | entries items =>
    rw [ListDir] at h
    exact listDirGo_nodup items [] r err (by simp [mapKeys]) h

/-! ## C1 — override shadows embedded wholesale -/

/-- C1: when the directory loader succeeds, `List` merges its output over
the embedded catalog; for every name bound by the loader (in particular
every name present in both catalogs), the merged registry maps that name to
exactly the loader's template — nothing of the embedded entry of the same
name survives. -/
theorem c1_override_shadows_embedded
    (pythonFiles : List (String × String)) (dir : DirState) (ext : Registry)
    (name : String)
    (hload : ListDir dir = (some ext, none))
    (hext : (mapGet ext name).isSome = true)
    (hemb : (mapGet (ListEmbedded pythonFiles) name).isSome = true) :
    listTemplates pythonFiles dir =
      (some (mergeRegs (ListEmbedded pythonFiles) ext), none) ∧
    mapGet (mergeRegs (ListEmbedded pythonFiles) ext) name =
      mapGet ext name := by
  constructor
  · rw [listTemplates, hload]
    rfl
  · obtain ⟨v, hv⟩ := Option.isSome_iff_exists.mp hext
    rw [hv]
    exact mapGet_mergeRegs_mem name ext _ v
      (listDir_nodup dir ext none hload) hv

/-- Witness for C1: a directory with one descriptor `Python.json` overriding
the embedded `Python` template. -/
theorem c1_override_shadows_embedded_witness :
    listTemplates []
        (.entries [⟨"Python.json", false,
          .ok ⟨"override", Manifest.zero, "", [], []⟩⟩]) =
      (some (mergeRegs (ListEmbedded [])
        [("Python", ⟨"override", Manifest.zero, "", [], []⟩)]), none) ∧
    mapGet (mergeRegs (ListEmbedded [])
        [("Python", ⟨"override", Manifest.zero, "", [], []⟩)]) "Python" =
      mapGet [("Python", ⟨"override", Manifest.zero, "", [], []⟩)] "Python" :=
  c1_override_shadows_embedded []
    (.entries [⟨"Python.json", false,
      .ok ⟨"override", Manifest.zero, "", [], []⟩⟩])
    [("Python", ⟨"override", Manifest.zero, "", [], []⟩)] "Python"
    (by decide) (by decide) (by decide)

/-! ## C2 — missing directory falls back to the embedded catalog -/

/-- C2: on a directory that does not exist, `ListDir` returns an empty,
non-nil catalog with no error, and `List` returns the embedded catalog
unchanged with no error. -/
theorem c2_missing_dir_embedded_only (pythonFiles : List (String × String)) :
    ListDir .notExist = (some [], none) ∧
    listTemplates pythonFiles .notExist =
      (some (ListEmbedded pythonFiles), none) :=
  ⟨rfl, rfl⟩

/-! ## C3 — loader errors abort the whole listing -/

theorem listDirGo_error :
    ∀ (items : List FSEntry) (ans : Registry),
      (∃ entry ∈ items, entry.isDir = false ∧
        strEndsWith entry.name ".json" = true ∧
        ∃ e, entry.readResult = .error e) →
      ∃ e, listDirGo items ans = (none, some e)
  | [], _, h => by simp at h
  | item :: rest, ans, h => by
    obtain ⟨entry, hmem, hdir, hsuf, e, herr⟩ := h
    rw [List.mem_cons] at hmem
    rw [listDirGo]
    by_cases hskip : (item.isDir || !strEndsWith item.name ".json") = true
    · rw [if_pos hskip]
      rcases hmem with hme | hmr
      · subst hme
        rw [hdir, hsuf] at hskip
        simp at hskip
      · exact listDirGo_error rest ans ⟨entry, hmr, hdir, hsuf, e, herr⟩
    · rw [if_neg hskip]
      cases hread : item.readResult with
      | error e2 => exact ⟨e2, rfl⟩
      | ok t =>
        rcases hmem with hme | hmr
        · subst hme
          rw [herr] at hread
          cases hread
        · exact listDirGo_error rest _ ⟨entry, hmr, hdir, hsuf, e, herr⟩

/-- C3: whenever reading the override directory fails, or any qualifying
descriptor file (a non-directory entry named `*.json`) fails to open or
decode, `ListDir` reports an error with a nil catalog, and `List` returns
that error with a nil catalog as well — no partial registry and no
embedded-only fallback. -/
theorem c3_error_aborts_listing (pythonFiles : List (String × String))
    (dir : DirState)
    (h : (∃ e, dir = .readError e) ∨
      (∃ items, dir = .entries items ∧ ∃ entry ∈ items,
        entry.isDir = false ∧ strEndsWith entry.name ".json" = true ∧
        ∃ e, entry.readResult = .error e)) :
    ∃ e, ListDir dir = (none, some e) ∧
      listTemplates pythonFiles dir = (none, some e) := by
  have hld : ∃ e, ListDir dir = (none, some e) := by
    rcases h with ⟨e, he⟩ | ⟨items, hitems, hfail⟩
    · exact ⟨e, by rw [he, ListDir]⟩
    · subst hitems
      rw [ListDir]
      exact listDirGo_error items [] hfail
  obtain ⟨e, he⟩ := hld
  exact ⟨e, he, by rw [listTemplates, he]⟩

/-- Witness for C3: a directory whose listing fails outright. -/
theorem c3_error_aborts_listing_witness :
    ∃ e, ListDir (.readError "boom") = (none, some e) ∧
      listTemplates [] (.readError "boom") = (none, some e) :=
  c3_error_aborts_listing [] (.readError "boom") (Or.inl ⟨"boom", rfl⟩)

/-! ## Asset provider: `mustEmbed`

`mustEmbed` walks a root of the compiled-in asset tree with `fs.WalkDir`,
skips directories, reads every file, and stores its content under
`strings.Trim(asset, "/.")`.  A walk error or read error makes the callback
return an error, which `mustEmbed` turns into a panic — embedded as `none`.
The walk is embedded as the list of events `fs.WalkDir` delivers, in
order. -/

/-- Membership in the Go cutset `"/."` of `strings.Trim`. -/
def isCut (c : Char) : Bool :=
  c == '/' || c == '.'

/-- Go `strings.Trim(s, "/.")`: remove the longest run of cutset characters
from both the beginning and the end of the string. -/
def trimCutset (s : String) : String :=
  String.mk (List.rdropWhile isCut (s.data.dropWhile isCut))

deriving instance DecidableEq for Except

/-- One event delivered by `fs.WalkDir`: a traversal error for some path,
a directory entry, or a file entry together with the outcome of
`fs.ReadFile` on it. -/
inductive WalkEvent where
  | errEvent (path msg : String)
  | dirEntry (path : String)
  | fileEntry (path : String) (content : Except String String)
deriving DecidableEq

/-- The walk loop of `mustEmbed`: abort (panic) on a traversal or read
error, skip directories, store each file's content under its trimmed
path. -/
def mustEmbedGo : List WalkEvent → List (String × String) →
    Option (List (String × String))
  | [], out => some out
  | .errEvent _ _ :: _, _ => none
  | .dirEntry _ :: rest, out => mustEmbedGo rest out
  | .fileEntry _ (.error _) :: _, _ => none
  | .fileEntry p (.ok content) :: rest, out =>
    mustEmbedGo rest (mapInsert out (trimCutset p) content)

/-- `func mustEmbed(root string) map[string]string`, over the walk events
of the given root. -/
def mustEmbed (tree : List WalkEvent) : Option (List (String × String)) :=
  mustEmbedGo tree []

/-! ## Lemmas about `mustEmbed` -/

theorem mem_mapInsert {α : Type} (kv : String × α) (k : String) (v : α) :
    ∀ m : List (String × α), kv ∈ mapInsert m k v → kv ∈ m ∨ kv = (k, v)
  | [] => by
    intro h
    rw [mapInsert] at h
    exact Or.inr (List.mem_singleton.mp h)
  | (k2, v2) :: rest => by
    by_cases h : k2 = k
    · subst h
      rw [mapInsert, if_pos rfl]
      intro hm
      rcases List.mem_cons.mp hm with he | hr
      · exact Or.inr he
      · exact Or.inl (List.mem_cons_of_mem _ hr)
    · rw [mapInsert, if_neg h]
      intro hm
      rcases List.mem_cons.mp hm with he | hr
      · exact Or.inl (he ▸ List.mem_cons_self _ _)
      · rcases mem_mapInsert kv k v rest hr with h1 | h2
        · exact Or.inl (List.mem_cons_of_mem _ h1)
        · exact Or.inr h2

/-- Every binding produced by the walk loop comes from the accumulator or
from a file event of the walk, keyed by the trimmed path and carrying the
file's content verbatim. -/
theorem mustEmbedGo_mem :
    ∀ (tree : List WalkEvent) (out m : List (String × String)),
      mustEmbedGo tree out = some m → ∀ kv ∈ m,
      kv ∈ out ∨ ∃ p, WalkEvent.fileEntry p (.ok kv.2) ∈ tree ∧
        kv.1 = trimCutset p
  | [], out, m, h, kv, hm => by
    rw [mustEmbedGo] at h
    cases h
    exact Or.inl hm
  | .errEvent p e :: rest, out, m, h, kv, hm => by
    rw [mustEmbedGo] at h
    cases h
  | .dirEntry p :: rest, out, m, h, kv, hm => by
    rw [mustEmbedGo] at h
    rcases mustEmbedGo_mem rest out m h kv hm with h1 | ⟨p2, hp2, ht⟩
    · exact Or.inl h1
    · exact Or.inr ⟨p2, List.mem_cons_of_mem _ hp2, ht⟩
  | .fileEntry p (.error e) :: rest, out, m, h, kv, hm => by
    rw [mustEmbedGo] at h
    cases h
  | .fileEntry p (.ok content) :: rest, out, m, h, kv, hm => by
    rw [mustEmbedGo] at h
    rcases mustEmbedGo_mem rest _ m h kv hm with h1 | ⟨p2, hp2, ht⟩
    · rcases mem_mapInsert kv _ _ out h1 with h2 | h3
      · exact Or.inl h2
      · refine Or.inr ⟨p, ?_, ?_⟩
        · rw [h3]
          exact List.mem_cons_self _ _
        · rw [h3]
    · exact Or.inr ⟨p2, List.mem_cons_of_mem _ hp2, ht⟩

theorem head_dropWhile_not_cut :
    ∀ (l : List Char) (c : Char),
      (l.dropWhile isCut).head? = some c → isCut c = false
  | [], c, h => by simp [List.dropWhile] at h
  | a :: rest, c, h => by
    cases ha : isCut a with
    | true =>
      rw [List.dropWhile_cons, if_pos ha] at h
      exact head_dropWhile_not_cut rest c h
    | false =>
      rw [List.dropWhile_cons, if_neg (by simp [ha])] at h
      rw [List.head?_cons] at h
      cases h
      exact ha

/-- The first character of a trimmed path is never a cutset character. -/
theorem trimCutset_head (s : String) (c : Char)
    (h : (trimCutset s).data.head? = some c) : isCut c = false := by
  rw [trimCutset] at h
  have h2 : (List.rdropWhile isCut (s.data.dropWhile isCut)).head? = some c := h
  obtain ⟨t, ht⟩ := List.rdropWhile_prefix isCut (s.data.dropWhile isCut)
  apply head_dropWhile_not_cut s.data c
  rw [← ht]
  cases hr : List.rdropWhile isCut (s.data.dropWhile isCut) with
  | nil => rw [hr] at h2; simp at h2
  | cons a l2 =>
    rw [hr] at h2
    rw [List.head?_cons] at h2
    rw [List.cons_append, List.head?_cons]
    exact h2

/-! ## C8 — asset keys are trimmed, contents verbatim -/

/-- C8: in every successfully extracted asset mapping, each key is free of
leading `/` and `.` characters, and each value is byte-for-byte the content
of the source file the key was derived from (the file's path trimmed of the
cutset). -/
theorem c8_asset_keys_trimmed_content_verbatim (tree : List WalkEvent)
    (m : List (String × String)) (h : mustEmbed tree = some m) :
    ∀ kv ∈ m, (∀ c, kv.1.data.head? = some c → isCut c = false) ∧
      ∃ p, WalkEvent.fileEntry p (.ok kv.2) ∈ tree ∧ kv.1 = trimCutset p := by
  intro kv hm
  rcases mustEmbedGo_mem tree [] m h kv hm with h1 | ⟨p, hp, ht⟩
  · simp at h1
  · refine ⟨?_, p, hp, ht⟩
    intro c hc
    rw [ht] at hc
    exact trimCutset_head p c hc

/-- Witness for C8: a dotfile `.cgiignore` is stored under `cgiignore`,
whose head `c` is not a cutset character, with its content verbatim. -/
theorem c8_asset_keys_trimmed_content_verbatim_witness :
    isCut 'c' = false ∧
      ∃ p, WalkEvent.fileEntry p (.ok "node_modules") ∈
          [WalkEvent.dirEntry ".",
           WalkEvent.fileEntry ".cgiignore" (.ok "node_modules")] ∧
        "cgiignore" = trimCutset p :=
  ⟨(c8_asset_keys_trimmed_content_verbatim
      [WalkEvent.dirEntry ".",
       WalkEvent.fileEntry ".cgiignore" (.ok "node_modules")]
      [("cgiignore", "node_modules")] (by decide)
      ("cgiignore", "node_modules") (List.mem_singleton.mpr rfl)).1 'c' rfl,
   (c8_asset_keys_trimmed_content_verbatim
      [WalkEvent.dirEntry ".",
       WalkEvent.fileEntry ".cgiignore" (.ok "node_modules")]
      [("cgiignore", "node_modules")] (by decide)
      ("cgiignore", "node_modules") (List.mem_singleton.mpr rfl)).2⟩

/-! ## C10 — trimming strips both ends, so distinct paths can collide -/

/-- C10: every stored key is the source path trimmed of leading and
trailing cutset characters (`strings.Trim(asset, "/.")`); consequently the
two distinct paths `a` and `a.` collapse to the same key `a`, and the later
file's content silently overwrites the earlier one's, leaving a single
binding. -/
theorem c10_trim_both_ends_collision :
    (∀ (tree : List WalkEvent) (m : List (String × String)),
        mustEmbed tree = some m → ∀ kv ∈ m,
        ∃ p r, WalkEvent.fileEntry p r ∈ tree ∧ kv.1 = trimCutset p) ∧
    trimCutset "a." = "a" ∧
    mustEmbed [.fileEntry "a" (.ok "c1"), .fileEntry "a." (.ok "c2")] =
      some [("a", "c2")] := by
  refine ⟨?_, by decide, by decide⟩
  intro tree m h kv hm
  rcases mustEmbedGo_mem tree [] m h kv hm with h1 | ⟨p, hp, ht⟩
  · simp at h1
  · exact ⟨p, .ok kv.2, hp, ht⟩

/-- Witness for C10: the general key-shape clause applied to a one-file
walk. -/
theorem c10_trim_both_ends_collision_witness :
    ∃ p r, WalkEvent.fileEntry p r ∈ [WalkEvent.fileEntry "a." (.ok "x")] ∧
      "a" = trimCutset p :=
  c10_trim_both_ends_collision.1 [WalkEvent.fileEntry "a." (.ok "x")]
    [("a", "x")] (by decide) ("a", "x") (List.mem_singleton.mpr rfl)

/-! ## Descriptor files: JSON encoding and decoding

`Read` opens a descriptor file and decodes it with `encoding/json` into a
zero `Template`.  The JSON text is embedded as a value tree `Json`; the
decoder below models Go struct decoding driven by the `json:"..."` field
tags of `Template` (absent fields keep the zero value, a field of the
wrong shape is an error, `post_clone`, `check` and `files` carry
`omitempty`).  The manifest record's field set and its serialized form are
modelled from the spec (`types.Manifest` is not part of the sources): name,
description, run vector, time limit (integer nanoseconds), maximum
payload, output headers. -/

inductive Json where
  | str (s : String)
  | num (n : Int)
  | arr (xs : List Json)
  | obj (fields : List (String × Json))

/-- Decode a JSON string. -/
def asString : Json → Except String String
  | .str s => .ok s
  | _ => .error "expected string"

/-- Decode every element of a JSON array, failing on the first error. -/
def decodeList {α : Type} (f : Json → Except String α) :
    List Json → Except String (List α)
  | [] => .ok []
  | j :: rest => do
    let a ← f j
    let l ← decodeList f rest
    .ok (a :: l)

/-- Decode every field of a JSON object as a string pair, failing on the
first non-string value. -/
def decodePairs : List (String × Json) → Except String (List (String × String))
  | [] => .ok []
  | kv :: rest => do
    let s ← asString kv.2
    let l ← decodePairs rest
    .ok ((kv.1, s) :: l)

/-- Decode a JSON array of strings (one probe command / the run vector). -/
def asStringList : Json → Except String (List String)
  | .arr xs => decodeList asString xs
  | _ => .error "expected array of strings"

/-- A string field: absent means the Go zero value `""`. -/
def decodeStringField (fields : List (String × Json)) (k : String) :
    Except String String :=
  match mapGet fields k with
  | none => .ok ""
  | some j => asString j

/-- An integer field: absent means the Go zero value `0`. -/
def decodeIntField (fields : List (String × Json)) (k : String) :
    Except String Int :=
  match mapGet fields k with
  | none => .ok 0
  | some (.num n) => .ok n
  | some _ => .error "expected number"

/-- A `map[string]string` field: absent means the Go zero value (nil map,
embedded as `[]`). -/
def decodeStrMapField (fields : List (String × Json)) (k : String) :
    Except String (List (String × String)) :=
  match mapGet fields k with
  | none => .ok []
  | some (.obj fs) => decodePairs fs
  | some _ => .error "expected object"

/-- A `[]string` field: absent means the Go zero value (nil slice,
embedded as `[]`). -/
def decodeRunField (fields : List (String × Json)) (k : String) :
    Except String (List String) :=
  match mapGet fields k with
  | none => .ok []
  | some j => asStringList j

/-- The `check` field: a `[][]string`, absent means nil. -/
def decodeCheckField (fields : List (String × Json)) :
    Except String (List (List String)) :=
  match mapGet fields "check" with
  | none => .ok []
  | some (.arr xs) => decodeList asStringList xs
  | some _ => .error "expected array"

/-- Modelled from the spec: decoding the nested manifest record
(`types.Manifest` is not part of the sources). -/
def decodeManifestJson : Json → Except String Manifest
  | .obj fs => do
    let name ← decodeStringField fs "name"
    let descr ← decodeStringField fs "description"
    let run ← decodeRunField fs "run"
    let tl ← decodeIntField fs "time_limit"
    let mp ← decodeIntField fs "maximum_payload"
    let oh ← decodeStrMapField fs "output_headers"
    .ok ⟨name, descr, run, tl, mp, oh⟩
  | _ => .error "expected object"

/-- The `manifest` field: absent means the zero manifest. -/
def decodeManifestField (fields : List (String × Json)) :
    Except String Manifest :=
  match mapGet fields "manifest" with
  | none => .ok Manifest.zero
  | some j => decodeManifestJson j

/-- The decoder of `Read` applied to a parsed descriptor: Go struct
decoding of `Template` by its `json:"..."` tags. -/
def decodeTemplate : Json → Except String Template
  | .obj fields => do
    let descr ← decodeStringField fields "description"
    let manifest ← decodeManifestField fields
    let postClone ← decodeStringField fields "post_clone"
    let check ← decodeCheckField fields
    let files ← decodeStrMapField fields "files"
    .ok ⟨descr, manifest, postClone, check, files⟩
  | _ => .error "expected object"

/-- Modelled from the spec: the serialized file form of the manifest
record. -/
def encodeManifest (m : Manifest) : Json :=
  .obj [("name", .str m.Name), ("description", .str m.Description),
        ("run", .arr (m.Run.map .str)), ("time_limit", .num m.TimeLimit),
        ("maximum_payload", .num m.MaximumPayload),
        ("output_headers", .obj (m.OutputHeaders.map fun kv => (kv.1, .str kv.2)))]

/-- The JSON descriptor file form of a `Template`: fields in struct order,
with the `omitempty` fields (`post_clone`, `check`, `files`) omitted when
empty, as `encoding/json` marshalling does. -/
def encodeTemplate (t : Template) : Json :=
  .obj ([("description", .str t.Description),
         ("manifest", encodeManifest t.Manifest)] ++
    (if t.PostClone = "" then [] else [("post_clone", .str t.PostClone)]) ++
    (if t.Check.isEmpty then [] else
      [("check", .arr (t.Check.map fun c => .arr (c.map .str)))]) ++
    (if t.Files.isEmpty then [] else
      [("files", .obj (t.Files.map fun kv => (kv.1, .str kv.2)))]))

/-! ## Round-trip lemmas -/

theorem except_ok_bind {α β : Type} (a : α) (f : α → Except String β) :
    (Except.ok a >>= f) = f a := rfl

theorem decodeList_asString_map (xs : List String) :
    decodeList asString (xs.map Json.str) = Except.ok xs := by
  induction xs with
  | nil => rfl
  | cons a l ih => simp [decodeList, asString, ih, except_ok_bind]

theorem decodeList_asStringList_map (cs : List (List String)) :
    decodeList asStringList
      (cs.map fun c => Json.arr (c.map Json.str)) = Except.ok cs := by
  induction cs with
  | nil => rfl
  | cons a l ih =>
    simp [decodeList, asStringList, decodeList_asString_map, ih,
      except_ok_bind]

theorem decodePairs_map (ps : List (String × String)) :
    decodePairs (ps.map fun kv => (kv.1, Json.str kv.2)) = Except.ok ps := by
  induction ps with
  | nil => rfl
  | cons a l ih => simp [decodePairs, asString, ih, except_ok_bind]

theorem decodeManifestJson_encode (m : Manifest) :
    decodeManifestJson (encodeManifest m) = Except.ok m := by
  rcases m with ⟨name, descr, run, tl, mp, oh⟩
  simp [encodeManifest, decodeManifestJson, decodeStringField, decodeRunField,
    decodeIntField, decodeStrMapField, mapGet, asString, asStringList,
    decodeList_asString_map, decodePairs_map, except_ok_bind]

/-! ## C7 — descriptor round trip -/

/-- C7: serializing any `Template` to its JSON descriptor file form and
decoding it back the way `Read` does yields a structurally equal
`Template`. -/
theorem c7_descriptor_round_trip (t : Template) :
    decodeTemplate (encodeTemplate t) = Except.ok t := by
  rcases t with ⟨descr, man, pc, chk, fls⟩
  by_cases hpc : pc = "" <;> by_cases hck : chk = [] <;> by_cases hfl : fls = [] <;>
    simp [encodeTemplate, decodeTemplate, hpc, hck, hfl, decodeStringField,
      decodeManifestField, decodeCheckField, decodeStrMapField, mapGet,
      asString, decodeManifestJson_encode, decodeList_asStringList_map,
      decodePairs_map, List.isEmpty_iff, except_ok_bind]

end Templates
